import Mathlib

/-!
Shallow embedding of `src/server.ts` (wyvern0us/proxy): the WebSocket
broadcast hub (connection set, bounded chat history, fan-out) and the
`/api/proxy` HTTP relay endpoint.  Each definition mirrors the cited
source lines; theorems settle the claims of the specification.
-/

namespace Wyvern

/-- `WebSocket.readyState` values of the `ws` library. -/
inductive ReadyState
  | CONNECTING
  | OPEN
  | CLOSING
  | CLOSED
deriving DecidableEq, Repr

/-- The `ChatMessage` interface of `server.ts`.  The `text` field is copied
verbatim from the inbound payload (`text: payload.text`), which in the
source may be `undefined`; hence `Option String` here. -/
structure ChatMessage where
  id : String
  user : String
  text : Option String
  timestamp : Nat
  color : String
deriving DecidableEq, Repr

/-- JavaScript `a || b` for a possibly-absent string: the default is taken
when the value is absent (`undefined`) or the empty string (both falsy). -/
def jsOr : Option String → String → String
  | some s, d => if s = "" then d else s
  | none, d => d

/-- Models `Math.random().toString(36).substring(2, 11)`: an id derived
from the environment-supplied random draw `r` by truncation to at most 9
base-36 digits (the truncation of `substring(2, 11)` is modelled as
reduction mod `36 ^ 9`), rendered as a string. -/
def genId (r : Nat) : String := String.mk (Nat.toDigits 36 (r % 36 ^ 9))

/-- The fields the `message` handler reads off a parsed inbound payload:
`payload.type`, `payload.user`, `payload.text`, `payload.color`.  Each may
be absent. -/
structure InPayload where
  type : Option String
  user : Option String
  text : Option String
  color : Option String
deriving DecidableEq, Repr

/-- The `newMessage` object built by the handler, given the random draw
`rnd` (for `Math.random()`) and the clock reading `now` (for
`Date.now()`). -/
def mkChatMessage (p : InPayload) (rnd now : Nat) : ChatMessage :=
  { id := genId rnd
    user := jsOr p.user "Anonymous"
    text := p.text
    timestamp := now
    color := jsOr p.color "#ffffff" }

/-- `messages.push(newMessage); if (messages.length > 50) messages.shift();`
— append, then drop the oldest entry when the buffer exceeds 50. -/
def pushMessage (messages : List ChatMessage) (m : ChatMessage) : List ChatMessage :=
  let pushed := messages ++ [m]
  if pushed.length > 50 then pushed.tail else pushed

/-- The server's mutable globals: `const messages: ChatMessage[] = []` and
`const clients = new Set<WebSocket>()`.  Connections are identified by
abstract numeric handles; the `Set` is a duplicate-free list in insertion
order (JS `Set` iteration order). -/
structure ServerState where
  messages : List ChatMessage
  clients : List Nat
deriving DecidableEq, Repr

/-- Both globals start empty. -/
def initialState : ServerState := { messages := [], clients := [] }

/-- `clients.add(ws)`: JS `Set.add` is a no-op on an already-present
element, otherwise appends in insertion order. -/
def addClient (clients : List Nat) (c : Nat) : List Nat :=
  if c ∈ clients then clients else clients ++ [c]

/-- Observable sends of the hub: the point-to-point
`ws.send({type: "init", messages})` at connection time, and the broadcast
`client.send({type: "message", message})` per accepted post. -/
inductive OutEvent
  | initSend (target : Nat) (messages : List ChatMessage)
  | msgSend (target : Nat) (message : ChatMessage)
deriving DecidableEq, Repr

/-- External stimuli driving the hub: a connection upgrade
(`wss.on("connection")`), an inbound frame on some connection
(`ws.on("message")`), and a disconnect (`ws.on("close")`).  An inbound
frame carries the transport states `rs` of all connections at broadcast
time, the random draw `rnd`, the clock `now`, and the parse result of the
frame (`none` when `JSON.parse` or field access throws, caught by the
handler's `try`/`catch`). -/
inductive ServerEvent
  | connect (ws : Nat)
  | wsMessage (rs : Nat → ReadyState) (rnd now : Nat) (payload : Option InPayload)
  | wsClose (ws : Nat)

/-- One event-loop turn of the server.  Mirrors, line for line:
`wss.on("connection")` (add to `clients`, send init snapshot to that
socket), the `ws.on("message")` handler (guard `payload.type ===
"message"`, build `newMessage`, push/shift, broadcast to every client
whose `readyState === WebSocket.OPEN`), and `ws.on("close")`
(`clients.delete(ws)`). -/
def step (st : ServerState) : ServerEvent → ServerState × List OutEvent
  | .connect ws =>
      let st' := { st with clients := addClient st.clients ws }
      (st', [.initSend ws st'.messages])
  | .wsMessage rs rnd now payload =>
      match payload with
      | none => (st, [])
      | some p =>
          if p.type = some "message" then
            let newMessage := mkChatMessage p rnd now
            let messages' := pushMessage st.messages newMessage
            let recipients := st.clients.filter (fun c => rs c = ReadyState.OPEN)
            ({ st with messages := messages' },
             recipients.map (fun c => .msgSend c newMessage))
          else (st, [])
  | .wsClose ws => ({ st with clients := st.clients.erase ws }, [])

/-- The state after a sequence of events. -/
def run : ServerState → List ServerEvent → ServerState
  | st, [] => st
  | st, e :: evs => run (step st e).1 evs

/-- All sends emitted over a sequence of events, in emission order. -/
def trace : ServerState → List ServerEvent → List OutEvent
  | _, [] => []
  | st, e :: evs => (step st e).2 ++ trace (step st e).1 evs

/-- The messages accepted (and hence appended to history) over a sequence
of events: one per inbound frame that parses and has `type = "message"`. -/
def acceptedMessages : List ServerEvent → List ChatMessage
  | [] => []
  | .wsMessage _ rnd now (some p) :: evs =>
      if p.type = some "message" then
        mkChatMessage p rnd now :: acceptedMessages evs
      else acceptedMessages evs
  | _ :: evs => acceptedMessages evs

/-- The connection a send is addressed to. -/
def eventTarget : OutEvent → Nat
  | .initSend t _ => t
  | .msgSend t _ => t

/-- The sends addressed to connection `c`, in order. -/
def eventsFor (c : Nat) (outs : List OutEvent) : List OutEvent :=
  outs.filter (fun e => eventTarget e = c)

/-- The broadcast chat messages delivered to connection `c`, in order
(init snapshots excluded). -/
def receivedBy (c : Nat) (outs : List OutEvent) : List ChatMessage :=
  outs.filterMap fun e =>
    match e with
    | .msgSend t m => if t = c then some m else none
    | _ => none

/-! ### The `/api/proxy` relay endpoint -/

/-- How the upstream behaves for one relay call: it either responds after
`afterMs` milliseconds with an optional `content-type` header and a body,
or the transport fails (DNS/refused/network error) with some error
message. -/
inductive UpstreamBehavior
  | responds (afterMs : Nat) (contentType : Option String) (body : List Nat)
  | unreachable (errorMessage : String)

/-- Outcome of `await fetch(targetUrl, { signal, ... })` under the
`AbortController` whose `setTimeout(() => controller.abort(), 10000)`
fires at the deadline: a response arriving past the deadline is aborted
(`fetch` rejects with an error named `AbortError`); a transport failure
rejects with a non-abort error (`TypeError` in Node's fetch). -/
inductive FetchOutcome
  | ok (contentType : Option String) (body : List Nat)
  | failed (errorName : String) (errorMessage : String)
deriving DecidableEq, Repr

/-- The fetch bounded by the timeout, as wired in the handler. -/
def fetchWithTimeout (timeoutMs : Nat) (up : UpstreamBehavior) : FetchOutcome :=
  match up with
  | .responds t ct body =>
      if t > timeoutMs then .failed "AbortError" "This operation was aborted"
      else .ok ct body
  | .unreachable msg => .failed "TypeError" msg

/-- Body of the HTTP response written back: raw bytes
(`res.send(Buffer.from(body))`) or a JSON error object
(`res.json({ error, details? })`). -/
inductive RelayBody
  | bytes (b : List Nat)
  | errJson (error : String) (details : Option String)
deriving DecidableEq, Repr

/-- The HTTP response written back by the handler: status code, the
response headers in the order they were set, and the body. -/
structure RelayResponse where
  status : Nat
  headers : List (String × String)
  body : RelayBody
deriving DecidableEq, Repr

/-- Result of one call to the `/api/proxy` handler, also recording whether
the outbound `fetch` was dispatched. -/
structure RelayResult where
  response : RelayResponse
  fetchIssued : Bool
deriving DecidableEq, Repr

/-- The `/api/proxy` GET handler.  `targetUrl` is `req.query.url`
(`none` when absent); `if (!targetUrl)` rejects both the absent and the
empty string (falsy) with `400 {error: "URL is required"}` before any
fetch.  Otherwise it fetches under the 10-second deadline; on success it
sets `Content-Type` from the upstream (when present), then the three
override headers (`Access-Control-Allow-Origin: *`,
`X-Frame-Options: ALLOWALL`, `Content-Security-Policy: frame-ancestors *`),
all before the body is sent; on failure it answers
`500 {error, details}` where the error text distinguishes `AbortError`
(`"Request timed out"`) from every other failure
(`"Failed to fetch URL"`). -/
def proxyHandler (targetUrl : Option String) (up : UpstreamBehavior) : RelayResult :=
  match targetUrl with
  | none => ⟨⟨400, [], .errJson "URL is required" none⟩, false⟩
  | some u =>
      if u = "" then ⟨⟨400, [], .errJson "URL is required" none⟩, false⟩
      else
        match fetchWithTimeout 10000 up with
        | .ok ct body =>
            let ctHeaders := match ct with
              | some c => [("Content-Type", c)]
              | none => []
            ⟨⟨200,
              ctHeaders ++
                [("Access-Control-Allow-Origin", "*"),
                 ("X-Frame-Options", "ALLOWALL"),
                 ("Content-Security-Policy", "frame-ancestors *")],
              .bytes body⟩, true⟩
        | .failed name msg =>
            ⟨⟨500, [],
              .errJson
                (if name = "AbortError" then "Request timed out"
                 else "Failed to fetch URL")
                (some msg)⟩, true⟩

/-! ### Concrete payloads used in witnesses and counterexamples -/

/-- An inbound `message` frame with the `text` field absent. -/
def noTextPayload : InPayload :=
  { type := some "message", user := some "u", text := none, color := none }

/-- A well-formed inbound `message` frame. -/
def helloPayload : InPayload :=
  { type := some "message", user := some "alice", text := some "hi",
    color := some "#fff" }

/-- An inbound `message` frame with `user` absent. -/
def anonPayload : InPayload :=
  { type := some "message", user := none, text := some "hi", color := none }

/-- An inbound `message` frame whose `color` field is present but empty. -/
def emptyColorPayload : InPayload :=
  { type := some "message", user := some "alice", text := some "hi",
    color := some "" }

/-! ### Helper lemmas -/

/-- Folding the push/shift update keeps exactly the most recent 50
entries: from a buffer already within capacity, processing `ms` leaves
the last 50 elements of the concatenation. -/
theorem foldl_pushMessage (ms : List ChatMessage) :
    ∀ b : List ChatMessage, b.length ≤ 50 →
      ms.foldl pushMessage b = (b ++ ms).drop ((b ++ ms).length - 50) := by
  induction ms with
  | nil =>
      intro b hb
      simp [Nat.sub_eq_zero_of_le hb]
  | cons m ms ih =>
      intro b hb
      rw [List.foldl_cons]
      by_cases hlen : b.length < 50
      · have hpush : pushMessage b m = b ++ [m] := by
          simp only [pushMessage]
          rw [if_neg]
          simp
          omega
        rw [hpush, ih (b ++ [m]) (by simp; omega)]
        simp [List.append_assoc]
      · have hb50 : b.length = 50 := by omega
        obtain ⟨hd, tl, rfl⟩ : ∃ hd tl, b = hd :: tl := by
          cases b with
          | nil => simp at hb50
          | cons hd tl => exact ⟨hd, tl, rfl⟩
        simp only [List.length_cons] at hb50
        have hpush : pushMessage (hd :: tl) m = tl ++ [m] := by
          simp only [pushMessage]
          rw [if_pos]
          · simp
          · simp
            omega
        rw [hpush, ih (tl ++ [m]) (by simp; omega)]
        have h1 : ((tl ++ [m]) ++ ms).length - 50 = ms.length := by
          simp
          omega
        have h2 : ((hd :: tl) ++ m :: ms).length - 50 = ms.length + 1 := by
          simp
          omega
        rw [h1, h2, List.cons_append, List.drop_succ_cons]
        simp [List.append_assoc]

/-- The history buffer after a run is the push/shift fold of the accepted
messages over the starting buffer; no other event touches `messages`. -/
theorem run_messages (evs : List ServerEvent) :
    ∀ st : ServerState,
      (run st evs).messages = (acceptedMessages evs).foldl pushMessage st.messages := by
  induction evs with
  | nil => intro st; simp [run, acceptedMessages]
  | cons e evs ih =>
      intro st
      cases e with
      | connect ws => simp [run, step, acceptedMessages, ih]
      | wsClose ws => simp [run, step, acceptedMessages, ih]
      | wsMessage rs rnd now payload =>
          cases payload with
          | none => simp [run, step, acceptedMessages, ih]
          | some p =>
              by_cases hp : p.type = some "message"
              · simp [run, step, acceptedMessages, hp, ih]
              · simp [run, step, acceptedMessages, hp, ih]

/-- `addClient` preserves freedom from duplicates. -/
theorem addClient_nodup {clients : List Nat} (h : clients.Nodup) (c : Nat) :
    (addClient clients c).Nodup := by
  by_cases hc : c ∈ clients
  · simpa [addClient, hc] using h
  · simp [addClient, hc]
    exact List.Nodup.append h (List.nodup_singleton c) (by simpa using fun hx => hc hx)

/-- Every step preserves freedom from duplicates of the connection set. -/
theorem step_clients_nodup (st : ServerState) (e : ServerEvent)
    (h : st.clients.Nodup) : (step st e).1.clients.Nodup := by
  cases e with
  | connect ws => simpa [step] using addClient_nodup h ws
  | wsClose ws => simpa [step] using List.Nodup.erase ws h
  | wsMessage rs rnd now payload =>
      cases payload with
      | none => simpa [step] using h
      | some p =>
          by_cases hp : p.type = some "message"
          · simpa [step, hp] using h
          · simpa [step, hp] using h

/-- Selecting the sends addressed to `c` out of a broadcast over `l`
yields one copy of the message per occurrence of `c` in `l`. -/
theorem receivedBy_broadcast (l : List Nat) (c : Nat) (m : ChatMessage) :
    receivedBy c (l.map (fun t => OutEvent.msgSend t m)) =
      List.replicate (l.count c) m := by
  induction l with
  | nil => simp [receivedBy]
  | cons t l ih =>
      by_cases ht : t = c
      · subst ht
        simp [receivedBy, List.count_cons] at ih ⊢
        rw [List.replicate_succ]
        simpa [receivedBy] using ih
      · simp [receivedBy, List.count_cons, ht] at ih ⊢
        simpa [receivedBy] using ih

/-- `receivedBy` distributes over concatenation of traces. -/
theorem receivedBy_append (c : Nat) (a b : List OutEvent) :
    receivedBy c (a ++ b) = receivedBy c a ++ receivedBy c b := by
  simp [receivedBy]

/-- Per-connection FIFO: the broadcasts any connection receives over a run
form a sublist of the accepted messages in history (append) order. -/
theorem receivedBy_trace_sublist (evs : List ServerEvent) :
    ∀ st : ServerState, st.clients.Nodup → ∀ c : Nat,
      (receivedBy c (trace st evs)).Sublist (acceptedMessages evs) := by
  induction evs with
  | nil => intro st _ c; simp [trace, acceptedMessages, receivedBy]
  | cons e evs ih =>
      intro st hnd c
      have hnd' := step_clients_nodup st e hnd
      rw [trace, receivedBy_append]
      have htail := ih (step st e).1 hnd' c
      cases e with
      | connect ws =>
          simpa [step, receivedBy, acceptedMessages] using htail
      | wsClose ws =>
          simpa [step, receivedBy, acceptedMessages] using htail
      | wsMessage rs rnd now payload =>
          cases payload with
          | none => simpa [step, receivedBy, acceptedMessages] using htail
          | some p =>
              by_cases hp : p.type = some "message"
              · have hcount :
                    (st.clients.filter (fun x => decide (rs x = ReadyState.OPEN))).count c ≤ 1 :=
                  List.nodup_iff_count_le_one.mp (List.Nodup.filter _ hnd) c
                rw [acceptedMessages, if_pos hp]
                simp only [step, hp, if_pos]
                rw [receivedBy_broadcast, ← List.singleton_append]
                refine List.Sublist.append ?_ (by simpa [step, hp] using htail)
                rcases Nat.le_one_iff_eq_zero_or_eq_one.mp hcount with h0 | h1
                · simp [h0]
                · simp [h1]
              · rw [acceptedMessages, if_neg hp]
                simpa [step, hp, receivedBy] using htail

/-! ### Claim theorems -/

/-- C1: after any sequence of events driving the hub from its initial
state, the history buffer never holds more than 50 messages, and it
equals exactly the most recent accepted messages — all of them while at
most 50 were accepted, and the last 50 in arrival order (oldest evicted
first) once more than 50 were. -/
theorem history_bounded_and_most_recent (evs : List ServerEvent) :
    (run initialState evs).messages.length ≤ 50 ∧
    (run initialState evs).messages =
      (acceptedMessages evs).drop ((acceptedMessages evs).length - 50) := by
  have h := run_messages evs initialState
  have h2 := foldl_pushMessage (acceptedMessages evs) [] (by simp)
  rw [List.nil_append] at h2
  rw [show initialState.messages = [] from rfl] at h
  refine ⟨?_, ?_⟩
  · rw [h, h2, List.length_drop]
    omega
  · rw [h, h2]

/-- C2 counterexample: an inbound `message` frame with no `text` field is
not rejected — it is appended to the history buffer and broadcast to the
open connection, so `Post` does not leave the state unchanged and signals
no failure. -/
theorem no_text_post_changes_state :
    (run initialState
        [ServerEvent.connect 7,
         ServerEvent.wsMessage (fun _ => ReadyState.OPEN) 0 0 (some noTextPayload)]).messages =
      [mkChatMessage noTextPayload 0 0] ∧
    receivedBy 7
        (trace initialState
          [ServerEvent.connect 7,
           ServerEvent.wsMessage (fun _ => ReadyState.OPEN) 0 0 (some noTextPayload)]) =
      [mkChatMessage noTextPayload 0 0] := by
  refine ⟨rfl, rfl⟩

/-- C2 amended: the handler performs no validation of `text`. Every parsed
inbound payload whose `type` is `"message"` — including one whose `text`
is absent or empty — is appended to the history buffer (text stored as
supplied) and broadcast to every open connection in the set; the
connection set itself is unchanged, and no `InvalidMessage` signal
exists. -/
theorem message_payload_always_accepted (st : ServerState) (rs : Nat → ReadyState)
    (rnd now : Nat) (p : InPayload) (h : p.type = some "message") :
    step st (ServerEvent.wsMessage rs rnd now (some p)) =
      ({ st with messages := pushMessage st.messages (mkChatMessage p rnd now) },
       (st.clients.filter fun c => rs c = ReadyState.OPEN).map
         fun c => OutEvent.msgSend c (mkChatMessage p rnd now)) := by
  simp [step, h]

/-- Witness for C2's amended theorem at a concrete no-text payload. -/
theorem message_payload_always_accepted_witness :
    step { messages := [], clients := [7] }
        (ServerEvent.wsMessage (fun _ => ReadyState.OPEN) 0 0 (some noTextPayload)) =
      ({ messages := [mkChatMessage noTextPayload 0 0], clients := [7] },
       [OutEvent.msgSend 7 (mkChatMessage noTextPayload 0 0)]) := by
  rw [message_payload_always_accepted { messages := [], clients := [7] }
      (fun _ => ReadyState.OPEN) 0 0 noTextPayload rfl]
  rfl

/-- C6: a connection upgrade adds the socket to the connection set and
sends — to that single socket only — one `init` payload carrying the full
current history buffer; in the subsequent trace this init send is the
first event that connection receives, before any later broadcast. -/
theorem join_sends_snapshot_first (st : ServerState) (c : Nat)
    (evs : List ServerEvent) :
    step st (ServerEvent.connect c) =
      ({ st with clients := addClient st.clients c },
       [OutEvent.initSend c st.messages]) ∧
    eventsFor c (trace st (ServerEvent.connect c :: evs)) =
      OutEvent.initSend c st.messages ::
        eventsFor c (trace (step st (ServerEvent.connect c)).1 evs) := by
  constructor
  · rfl
  · simp [trace, step, eventsFor, eventTarget]

/-- C7: a relay call with the target URL absent or empty answers
`400 {error: "URL is required"}` and dispatches no outbound fetch,
whatever the upstream would have done. -/
theorem relay_missing_url_no_fetch (up : UpstreamBehavior) :
    proxyHandler none up =
      ⟨⟨400, [], RelayBody.errJson "URL is required" none⟩, false⟩ ∧
    proxyHandler (some "") up =
      ⟨⟨400, [], RelayBody.errJson "URL is required" none⟩, false⟩ := by
  constructor <;> rfl

/-- C3: a relay call whose upstream response arrives past the 10-second
deadline is aborted and answered `500 {error: "Request timed out"}`; every
other transport failure is answered `500 {error: "Failed to fetch URL"}`;
the two bodies differ (the caller can distinguish them), and neither is a
byte-body success. -/
theorem relay_timeout_distinct_from_unreachable (u : String) (hu : u ≠ "")
    (t : Nat) (ht : 10000 < t) (ct : Option String) (body : List Nat)
    (msg : String) :
    proxyHandler (some u) (UpstreamBehavior.responds t ct body) =
      ⟨⟨500, [],
        RelayBody.errJson "Request timed out" (some "This operation was aborted")⟩,
       true⟩ ∧
    proxyHandler (some u) (UpstreamBehavior.unreachable msg) =
      ⟨⟨500, [], RelayBody.errJson "Failed to fetch URL" (some msg)⟩, true⟩ ∧
    (proxyHandler (some u) (UpstreamBehavior.responds t ct body)).response.body ≠
      (proxyHandler (some u) (UpstreamBehavior.unreachable msg)).response.body ∧
    (∀ b, (proxyHandler (some u) (UpstreamBehavior.responds t ct body)).response.body ≠
      RelayBody.bytes b) ∧
    (∀ b, (proxyHandler (some u) (UpstreamBehavior.unreachable msg)).response.body ≠
      RelayBody.bytes b) := by
  have h1 : proxyHandler (some u) (UpstreamBehavior.responds t ct body) =
      ⟨⟨500, [],
        RelayBody.errJson "Request timed out" (some "This operation was aborted")⟩,
       true⟩ := by
    simp [proxyHandler, fetchWithTimeout, hu, ht]
  have h2 : proxyHandler (some u) (UpstreamBehavior.unreachable msg) =
      ⟨⟨500, [], RelayBody.errJson "Failed to fetch URL" (some msg)⟩, true⟩ := by
    simp [proxyHandler, fetchWithTimeout, hu]
  refine ⟨h1, h2, ?_, ?_, ?_⟩
  · rw [h1, h2]
    simp
  · intro b
    rw [h1]
    simp
  · intro b
    rw [h2]
    simp

/-- Witness for C3 at a concrete slow upstream and a concrete transport
failure. -/
theorem relay_timeout_distinct_witness :
    proxyHandler (some "http://example.com")
        (UpstreamBehavior.responds 15000 none []) =
      ⟨⟨500, [],
        RelayBody.errJson "Request timed out" (some "This operation was aborted")⟩,
       true⟩ ∧
    proxyHandler (some "http://example.com")
        (UpstreamBehavior.unreachable "getaddrinfo ENOTFOUND") =
      ⟨⟨500, [],
        RelayBody.errJson "Failed to fetch URL" (some "getaddrinfo ENOTFOUND")⟩,
       true⟩ := by
  have h := relay_timeout_distinct_from_unreachable "http://example.com"
      (by decide) 15000 (by decide) none [] "getaddrinfo ENOTFOUND"
  exact ⟨h.1, h.2.1⟩

/-- C4: a relay call answered within the deadline succeeds with status
200, the full upstream body as the response body, the three override
headers (wildcard cross-origin allow, `X-Frame-Options: ALLOWALL`
overriding any upstream frame-blocking directive, and
`Content-Security-Policy: frame-ancestors *` disabling frame-ancestor
restriction) among the headers set before the body is written, and the
upstream `Content-Type` value propagated whenever it is present. -/
theorem relay_success_headers_and_body (u : String) (hu : u ≠ "") (t : Nat)
    (ht : t ≤ 10000) (ct : Option String) (body : List Nat) :
    (proxyHandler (some u) (UpstreamBehavior.responds t ct body)).response.status = 200 ∧
    (proxyHandler (some u) (UpstreamBehavior.responds t ct body)).response.body =
      RelayBody.bytes body ∧
    ("Access-Control-Allow-Origin", "*") ∈
      (proxyHandler (some u) (UpstreamBehavior.responds t ct body)).response.headers ∧
    ("X-Frame-Options", "ALLOWALL") ∈
      (proxyHandler (some u) (UpstreamBehavior.responds t ct body)).response.headers ∧
    ("Content-Security-Policy", "frame-ancestors *") ∈
      (proxyHandler (some u) (UpstreamBehavior.responds t ct body)).response.headers ∧
    (∀ c, ct = some c → ("Content-Type", c) ∈
      (proxyHandler (some u) (UpstreamBehavior.responds t ct body)).response.headers) := by
  have hnot : ¬ t > 10000 := by omega
  cases ct with
  | none => refine ⟨?_, ?_, ?_, ?_, ?_, ?_⟩ <;>
      simp [proxyHandler, fetchWithTimeout, hu, hnot]
  | some cval => refine ⟨?_, ?_, ?_, ?_, ?_, ?_⟩ <;>
      simp [proxyHandler, fetchWithTimeout, hu, hnot]

/-- Witness for C4 at a concrete fast upstream carrying a content type. -/
theorem relay_success_witness :
    (proxyHandler (some "http://a")
        (UpstreamBehavior.responds 3 (some "text/html") [104, 105])).response.status = 200 ∧
    (proxyHandler (some "http://a")
        (UpstreamBehavior.responds 3 (some "text/html") [104, 105])).response.body =
      RelayBody.bytes [104, 105] ∧
    ("Access-Control-Allow-Origin", "*") ∈
      (proxyHandler (some "http://a")
        (UpstreamBehavior.responds 3 (some "text/html") [104, 105])).response.headers ∧
    ("X-Frame-Options", "ALLOWALL") ∈
      (proxyHandler (some "http://a")
        (UpstreamBehavior.responds 3 (some "text/html") [104, 105])).response.headers ∧
    ("Content-Security-Policy", "frame-ancestors *") ∈
      (proxyHandler (some "http://a")
        (UpstreamBehavior.responds 3 (some "text/html") [104, 105])).response.headers ∧
    ("Content-Type", "text/html") ∈
      (proxyHandler (some "http://a")
        (UpstreamBehavior.responds 3 (some "text/html") [104, 105])).response.headers := by
  have h := relay_success_headers_and_body "http://a" (by decide) 3 (by decide)
      (some "text/html") [104, 105]
  exact ⟨h.1, h.2.1, h.2.2.1, h.2.2.2.1, h.2.2.2.2.1, h.2.2.2.2.2 "text/html" rfl⟩

/-- C5: an accepted post first applies the append (with eviction) to the
history buffer and produces exactly one broadcast send per connection that
is in the set and `OPEN` at that moment, all carrying the new message, the
connection set unchanged; and over any run from the initial state, the
broadcasts any single connection receives form a sublist of the accepted
messages in history (append) order — global FIFO, no per-connection
reordering. -/
theorem post_appends_then_broadcasts_fifo :
    (∀ (st : ServerState) (rs : Nat → ReadyState) (rnd now : Nat) (p : InPayload),
        p.type = some "message" →
          step st (ServerEvent.wsMessage rs rnd now (some p)) =
            ({ st with messages := pushMessage st.messages (mkChatMessage p rnd now) },
             (st.clients.filter fun c => rs c = ReadyState.OPEN).map
               fun c => OutEvent.msgSend c (mkChatMessage p rnd now))) ∧
    (∀ (evs : List ServerEvent) (c : Nat),
        (receivedBy c (trace initialState evs)).Sublist (acceptedMessages evs)) := by
  constructor
  · intro st rs rnd now p h
    simp [step, h]
  · intro evs c
    exact receivedBy_trace_sublist evs initialState (by simp [initialState]) c

/-- Witness for C5 at a concrete hub state and payload. -/
theorem post_appends_then_broadcasts_fifo_witness :
    step { messages := [], clients := [3] }
        (ServerEvent.wsMessage (fun _ => ReadyState.OPEN) 1 2 (some helloPayload)) =
      ({ messages := [mkChatMessage helloPayload 1 2], clients := [3] },
       [OutEvent.msgSend 3 (mkChatMessage helloPayload 1 2)]) ∧
    (receivedBy 3 (trace initialState
        [ServerEvent.wsMessage (fun _ => ReadyState.OPEN) 1 2 (some helloPayload)])).Sublist
      (acceptedMessages
        [ServerEvent.wsMessage (fun _ => ReadyState.OPEN) 1 2 (some helloPayload)]) := by
  constructor
  · rw [post_appends_then_broadcasts_fifo.1 { messages := [], clients := [3] }
        (fun _ => ReadyState.OPEN) 1 2 helloPayload rfl]
    rfl
  · exact post_appends_then_broadcasts_fifo.2
      [ServerEvent.wsMessage (fun _ => ReadyState.OPEN) 1 2 (some helloPayload)] 3

/-- C8 counterexample: two posts whose random draws differ by `36 ^ 9`
(the truncation modulus of `substring(2, 11)`) create two distinct stored
messages carrying the same identifier, so identifiers are not unique per
message. -/
theorem distinct_messages_equal_id :
    (run initialState
        [ServerEvent.wsMessage (fun _ => ReadyState.OPEN) 0 1 (some anonPayload),
         ServerEvent.wsMessage (fun _ => ReadyState.OPEN) (36 ^ 9) 2 (some anonPayload)]).messages =
      [mkChatMessage anonPayload 0 1, mkChatMessage anonPayload (36 ^ 9) 2] ∧
    mkChatMessage anonPayload 0 1 ≠ mkChatMessage anonPayload (36 ^ 9) 2 ∧
    (mkChatMessage anonPayload 0 1).id = (mkChatMessage anonPayload (36 ^ 9) 2).id := by
  refine ⟨rfl, by decide, by decide⟩

/-- C8 amended: the identifier of every message a post creates is computed
by the server from the random draw alone — never taken from the client
payload, and independent of it — but, being a truncated non-cryptographic
random value, it is not guaranteed unique across distinct messages. -/
theorem id_generated_from_random_draw (p q : InPayload) (rnd now now' : Nat) :
    (mkChatMessage p rnd now).id = genId rnd ∧
    (mkChatMessage p rnd now).id = (mkChatMessage q rnd now').id :=
  ⟨rfl, rfl⟩

/-- C9 counterexample: a post whose `color` field is present but empty is
stored with the sentinel `"#ffffff"`, not with the client-supplied empty
string. -/
theorem present_empty_color_not_kept :
    (run initialState
        [ServerEvent.wsMessage (fun _ => ReadyState.OPEN) 0 0 (some emptyColorPayload)]).messages =
      [mkChatMessage emptyColorPayload 0 0] ∧
    emptyColorPayload.color = some "" ∧
    (mkChatMessage emptyColorPayload 0 0).color = "#ffffff" ∧
    (mkChatMessage emptyColorPayload 0 0).color ≠ "" := by
  refine ⟨rfl, rfl, rfl, by decide⟩

/-- C9 amended: the stored author is the client-supplied `user` when
present and non-empty and `"Anonymous"` otherwise; the stored color is the
client-supplied `color` when present and non-empty and `"#ffffff"`
otherwise (JavaScript `||` also replaces a present-but-empty string). -/
theorem author_color_defaulting (p : InPayload) (rnd now : Nat) :
    ((p.user = none ∨ p.user = some "") →
      (mkChatMessage p rnd now).user = "Anonymous") ∧
    (∀ s, p.user = some s → s ≠ "" → (mkChatMessage p rnd now).user = s) ∧
    ((p.color = none ∨ p.color = some "") →
      (mkChatMessage p rnd now).color = "#ffffff") ∧
    (∀ s, p.color = some s → s ≠ "" → (mkChatMessage p rnd now).color = s) := by
  refine ⟨?_, ?_, ?_, ?_⟩
  · rintro (h | h) <;> simp [mkChatMessage, jsOr, h]
  · intro s hs hne
    simp [mkChatMessage, jsOr, hs, hne]
  · rintro (h | h) <;> simp [mkChatMessage, jsOr, h]
  · intro s hs hne
    simp [mkChatMessage, jsOr, hs, hne]

/-- Witness for C9's amended theorem at a concrete payload with a
non-empty user and an empty color. -/
theorem author_color_defaulting_witness :
    (mkChatMessage emptyColorPayload 0 0).user = "alice" ∧
    (mkChatMessage emptyColorPayload 0 0).color = "#ffffff" := by
  have h := author_color_defaulting emptyColorPayload 0 0
  exact ⟨h.2.1 "alice" rfl (by decide), h.2.2.1 (Or.inr rfl)⟩

/-- C10: during the broadcast of an inbound frame, a connection whose
transport state is not `OPEN` receives nothing — even while still present
in the connection set — and every send the broadcast emits is addressed to
a connection that is both in the set and `OPEN` at that moment. -/
theorem broadcast_only_to_open (st : ServerState) (rs : Nat → ReadyState)
    (rnd now : Nat) (payload : Option InPayload) (c : Nat) :
    (rs c ≠ ReadyState.OPEN →
      eventsFor c (step st (ServerEvent.wsMessage rs rnd now payload)).2 = []) ∧
    (∀ ev ∈ (step st (ServerEvent.wsMessage rs rnd now payload)).2,
      eventTarget ev ∈ st.clients ∧ rs (eventTarget ev) = ReadyState.OPEN) := by
  cases payload with
  | none => simp [step, eventsFor]
  | some p =>
      by_cases hp : p.type = some "message"
      · constructor
        · intro hc
          rw [eventsFor, List.filter_eq_nil_iff]
          intro ev hev
          simp [step, hp, List.mem_map, List.mem_filter] at hev
          obtain ⟨a, ⟨-, ha⟩, rfl⟩ := hev
          simp only [eventTarget, decide_eq_true_eq]
          intro h
          exact hc (h ▸ ha)
        · intro ev hev
          simp [step, hp, List.mem_map, List.mem_filter] at hev
          obtain ⟨a, ⟨hmem, ha⟩, rfl⟩ := hev
          exact ⟨hmem, ha⟩
      · simp [step, hp, eventsFor]

/-- Witness for C10: a connection in the set whose transport is closed
receives no send from a broadcast. -/
theorem broadcast_only_to_open_witness :
    eventsFor 5 (step { messages := [], clients := [5] }
        (ServerEvent.wsMessage (fun _ => ReadyState.CLOSED) 0 0 (some helloPayload))).2 = [] :=
  (broadcast_only_to_open { messages := [], clients := [5] }
      (fun _ => ReadyState.CLOSED) 0 0 (some helloPayload) 5).1 (by decide)

end Wyvern
